import Mathlib

/-!
Verification development for the coolify-supabase-deployment action.

The definitions below are shallow embeddings of the TypeScript source:
`coolify.ts` (the `Coolify` class with `createRetryFetch`,
`isConnectionTimeoutError`, `waitUntilServiceIsReady`,
`checkIfDeploymentUnderway`, `createEnvsForService`, `updateSecrets`,
`pushMigrations`) and `main.ts` (the `run` entry point).  The
`TCPTunnelClient` internals (`tcp-tunnel.ts`) are not part of the sources;
where a property depends on them, the forwarding behaviour is modelled from
the specification and the doc comment of the definition says so.
-/

/-- Embedding of the JavaScript `String.prototype.toLowerCase` as used on the
ASCII action inputs: lowercases every character. -/
def jsToLowerCase (s : String) : String := ⟨s.data.map Char.toLower⟩

/-- Embedding of JavaScript `String.prototype.includes` on character lists:
true when `pat` occurs contiguously inside the second list. -/
def infixCheck (pat : List Char) : List Char → Bool
  | [] => pat.isEmpty
  | c :: rest => pat.isPrefixOf (c :: rest) || infixCheck pat rest

/-! ## main.ts: interpretation of the `ephemeral` input (claim C8) -/

/-- From `main.ts`, `run`: the condition choosing the random-suffix
deployment name is that `ephemeral.toLowerCase()` equals the string `true`. -/
def ephemeralNameMode (ephemeral : String) : Bool :=
  jsToLowerCase ephemeral == "true"

/-- From `main.ts`, `run`: the `ephemeral` flag passed to
`createDeployment` is that `ephemeral` equals the string `true` verbatim. -/
def ephemeralFlag (ephemeral : String) : Bool :=
  ephemeral == "true"

/-- From `main.ts`, `run`: the call replacing a slash by a dash in
`branchOrPR` — the JavaScript string-pattern `replace` rewrites only the
first occurrence. -/
def replaceFirstSlash : List Char → List Char
  | [] => []
  | c :: cs => if c = '/' then '-' :: cs else c :: replaceFirstSlash cs

/-- From `main.ts`, `run`: the deployment name, given the `ephemeral` input,
the branch name and the generated random UUID string. -/
def deploymentName (ephemeral branchOrPR uuid : String) : String :=
  if ephemeralNameMode ephemeral then
    ⟨replaceFirstSlash branchOrPR.data⟩ ++ "-" ++ uuid
  else
    ⟨replaceFirstSlash branchOrPR.data⟩

/-! ## coolify.ts: `checkIfDeploymentUnderway` (claim C9) -/

/-- One entry of the deployments list returned by the platform API. -/
structure Deployment where
  commit : String
  status : String
deriving DecidableEq

/-- From `coolify.ts`, `checkIfDeploymentUnderway`: the statuses counted as
a deployment being underway. -/
def inProgressStatuses : List String :=
  ["running", "queued", "in_progress", "finished", "pending"]

/-- Outcome of the `listDeploymentsByAppUuid` API call: an exception, a
response with no `data`, or a deployments list. -/
inductive DeploymentsApiOutcome where
  | apiError
  | noData
  | ok (deployments : List Deployment)

/-- Embedding of `Coolify.checkIfDeploymentUnderway`: finds the first
deployment whose commit equals `sha` or `HEAD` and tests its status
against `inProgressStatuses`; returns `false` when there is no `data`,
no matching entry, or the API call throws. -/
def checkIfDeploymentUnderway (sha : String) :
    DeploymentsApiOutcome → Bool
  | .apiError => false
  | .noData => false
  | .ok deployments =>
    match deployments.find? (fun d => d.commit == sha || d.commit == "HEAD") with
    | some d => inProgressStatuses.contains d.status
    | none => false

/-! ## coolify.ts: `createEnvsForService` (claim C10) -/

/-- One env entry handed to `createEnvsForService`.  A JavaScript-falsy
value is `undefined` (here `none`) or the empty string. -/
structure EnvEntry where
  key : String
  value : Option String
  optional : Bool
deriving DecidableEq

/-- JavaScript truthiness of `env.value`: `!env.value` holds for
`undefined` and for the empty string. -/
def envValueFalsy (v : Option String) : Bool :=
  match v with
  | none => true
  | some s => s == ""

/-- Result of running `createEnvsForService`: the keys for which
`createOrUpdateEnv` was invoked, in order, and the error message of the
exception thrown, if any. -/
structure EnvRunResult where
  calls : List String
  err : Option String
deriving DecidableEq

/-- Embedding of `Coolify.createEnvsForService`: iterates the env list in
order; throws `Env <key> has no value` for a falsy non-optional value,
skips a falsy optional value, and otherwise calls `createOrUpdateEnv`. -/
def createEnvsForService : List EnvEntry → EnvRunResult
  | [] => ⟨[], none⟩
  | e :: rest =>
    if envValueFalsy e.value then
      if e.optional then createEnvsForService rest
      else ⟨[], some ("Env " ++ e.key ++ " has no value")⟩
    else
      let r := createEnvsForService rest
      ⟨e.key :: r.calls, r.err⟩

/-! ## coolify.ts: `isConnectionTimeoutError` and `createRetryFetch` (claim C3) -/

/-- A value thrown by a fetch attempt: either a JavaScript `Error` with an
optional `code` field and a `message`, or a non-`Error` throwable. -/
inductive Thrown where
  | err (code : Option String) (message : String)
  | nonError
deriving DecidableEq

/-- Embedding of `isConnectionTimeoutError`: true exactly when the thrown
value is an `Error` whose `code` is one of the four connection codes or
whose lowercased message contains one of the five substrings. -/
def isConnectionTimeoutError : Thrown → Bool
  | .nonError => false
  | .err code message =>
    let m := (jsToLowerCase message).data
    code == some "ECONNREFUSED" ||
    code == some "ETIMEDOUT" ||
    code == some "ENOTFOUND" ||
    code == some "ECONNRESET" ||
    infixCheck "connect timeout".data m ||
    infixCheck "connection timeout".data m ||
    infixCheck "fetch failed".data m ||
    infixCheck "networkerror".data m ||
    infixCheck "network error".data m

/-- Observable outcome of one call of the wrapped fetch: the value returned
or the value thrown, the number of base-fetch attempts made, and the list of
backoff waits performed, in order. -/
structure RetryResult (R : Type) where
  result : Except Thrown R
  attempts : Nat
  delays : List Nat

/-- Embedding of the retry loop body of `createRetryFetch`.  The base fetch
is modelled by the outcome of each attempt index; `remaining` counts the
retries still allowed (`maxRetries - attempt` in the source loop), `delay`
is the current backoff wait. -/
def retryFetchAux {R : Type} (base : Nat → Except Thrown R) :
    Nat → Nat → Nat → RetryResult R
  | attempt, _, 0 =>
    match base attempt with
    | .ok r => ⟨.ok r, 1, []⟩
    | .error e => ⟨.error e, 1, []⟩
  | attempt, delay, remaining + 1 =>
    match base attempt with
    | .ok r => ⟨.ok r, 1, []⟩
    | .error e =>
      if isConnectionTimeoutError e then
        let tail := retryFetchAux base (attempt + 1) (min (delay * 2) 30000) remaining
        ⟨tail.result, tail.attempts + 1, delay :: tail.delays⟩
      else ⟨.error e, 1, []⟩

/-- Embedding of `createRetryFetch(baseFetch, maxRetries, initialDelayMs)`
applied to one request: runs the attempt loop from attempt 0. -/
def createRetryFetch {R : Type} (base : Nat → Except Thrown R)
    (maxRetries initialDelayMs : Nat) : RetryResult R :=
  retryFetchAux base 0 initialDelayMs maxRetries

/-- The backoff wait before the k-th retry: starts at `initialDelayMs` and
after each wait is doubled and capped at 30000 ms. -/
def delayAt (initialDelayMs : Nat) : Nat → Nat
  | 0 => initialDelayMs
  | k + 1 => min (delayAt initialDelayMs k * 2) 30000

/-! ## coolify.ts: `waitUntilServiceIsReady` (claim C7) -/

/-- From `waitUntilServiceIsReady`: the `setInterval` period, 5000 ms. -/
def pollIntervalMs : Nat := 5000

/-- Number of `checkStatus` runs that happen before the expiration timer
fires: the polls occur at 0, 5000, 10000, ... ms and the timer fires at
`timeoutMs`, cancelling the interval. -/
def maxPollCount (timeoutMs : Nat) : Nat :=
  (timeoutMs + (pollIntervalMs - 1)) / pollIntervalMs

/-- Observable outcome of `waitUntilServiceIsReady`: whether the promise
resolved, the rejection message if it rejected, and whether the interval
timer was cleared. -/
structure PollResult where
  resolved : Bool
  rejectedWith : Option String
  intervalCleared : Bool
deriving DecidableEq

/-- Embedding of `Coolify.waitUntilServiceIsReady`.  `statusAt k` is the
service status observed by the k-th poll (`none` when the response has no
status field).  The promise resolves at the first poll that observes
`running:healthy`, clearing both timers; otherwise the expiration timer
fires after `timeout_seconds` seconds (default 1200), clears the interval
and rejects with the timeout message. -/
def waitUntilServiceIsReady (serviceUUID : String)
    (timeout_seconds : Option Nat) (statusAt : Nat → Option String) :
    PollResult :=
  let timeout := timeout_seconds.getD 1200
  let polls := maxPollCount (timeout * 1000)
  match (List.range polls).find? (fun k => statusAt k == some "running:healthy") with
  | some _ => ⟨true, none, true⟩
  | none =>
    ⟨false,
     some ("Timeout waiting for service " ++ serviceUUID ++ " to be ready"),
     true⟩

/-! ## coolify.ts: statement order inside the tunnel-using methods (C6) -/

/-- Events of the tunnel-using method bodies, in source statement order. -/
inductive CallEv where
  | awaitTunnelConnect
  | openLocalPostgres
  | vaultQuery
  | sqlEnd
  | runMigrationCommand
  | tunnelDisconnect (awaited : Bool)
  | nestedUpdateSecrets
deriving DecidableEq

/-- Events that open a connection to `localhost:<localPort>`: creating the
postgres client, or running the supabase CLI migration command. -/
def usesLocalPort : CallEv → Bool
  | .openLocalPostgres => true
  | .runMigrationCommand => true
  | _ => false

/-- Statement order of `Coolify.updateSecrets`: await `tunnel.connect()`,
create the postgres client, four vault queries and two updates folded as
queries, `sql.end()`, then await `tunnel.disconnect()`. -/
def updateSecretsTrace : List CallEv :=
  [.awaitTunnelConnect, .openLocalPostgres,
   .vaultQuery, .vaultQuery, .vaultQuery, .vaultQuery,
   .sqlEnd, .tunnelDisconnect true]

/-- Statement order of `Coolify.pushMigrations` for each value of
`resetDb`: await `tunnel.connect()`; with reset, create the postgres
client, run three TRUNCATE queries, `sql.end()`, then exec the reset
command; without reset, exec the push command directly; in both branches
`tunnel.disconnect()` is then invoked without `await`, and with reset the
nested `updateSecrets` call follows. -/
def pushMigrationsTrace (resetDb : Bool) : List CallEv :=
  if resetDb then
    [.awaitTunnelConnect, .openLocalPostgres,
     .vaultQuery, .vaultQuery, .vaultQuery, .sqlEnd,
     .runMigrationCommand, .tunnelDisconnect false, .nestedUpdateSecrets]
  else
    [.awaitTunnelConnect, .runMigrationCommand, .tunnelDisconnect false]

/-! ## coolify.ts: exit paths of the tunnel-using methods (claim C2) -/

/-- Environment of one `updateSecrets` run: whether `tunnel.connect()`
succeeds, the outcome of the two vault SELECTs (exception, zero rows, or a
row id), and whether the two `vault.update_secret` calls succeed. -/
structure UpdateSecretsWorld where
  connectOk : Bool
  edgeSecretQuery : Except Unit (Option String)
  urlSecretQuery : Except Unit (Option String)
  updateEdgeOk : Bool
  updateUrlOk : Bool

/-- Observable tunnel handling of one method run: the error propagated (if
any), whether `tunnel.disconnect()` was invoked before the method
returned or threw, and whether that call was awaited. -/
structure TunnelUseResult where
  err : Option String
  disconnectCalled : Bool
  disconnectAwaited : Bool
deriving DecidableEq

/-- Embedding of the control flow of `Coolify.updateSecrets`: there is no
try/finally, so every throw after a successful `tunnel.connect()`
propagates before the final `await tunnel.disconnect()` statement is
reached. -/
def updateSecretsRun (w : UpdateSecretsWorld) : TunnelUseResult :=
  if !w.connectOk then ⟨some "tunnel connect failed", false, false⟩
  else
    match w.edgeSecretQuery with
    | .error _ => ⟨some "sql error", false, false⟩
    | .ok none => ⟨some "Edge function secret not found in vault", false, false⟩
    | .ok (some _) =>
      match w.urlSecretQuery with
      | .error _ => ⟨some "sql error", false, false⟩
      | .ok none =>
        ⟨some "Supabase project url secret not found in vault", false, false⟩
      | .ok (some _) =>
        if !w.updateEdgeOk then ⟨some "sql error", false, false⟩
        else if !w.updateUrlOk then ⟨some "sql error", false, false⟩
        else ⟨none, true, true⟩

/-- Environment of one `pushMigrations` run: whether `tunnel.connect()`
succeeds, the `resetDb` flag, whether the TRUNCATE queries succeed, and
whether the `exec` of the migration command succeeds. -/
structure PushMigrationsWorld where
  connectOk : Bool
  resetDb : Bool
  truncatesOk : Bool
  execOk : Bool

/-- Embedding of the control flow of `Coolify.pushMigrations`: no
try/finally, so a failing `exec` (or TRUNCATE) propagates before
`tunnel.disconnect()` is reached; on the success path `tunnel.disconnect()`
is invoked without `await`. -/
def pushMigrationsRun (w : PushMigrationsWorld) : TunnelUseResult :=
  if !w.connectOk then ⟨some "tunnel connect failed", false, false⟩
  else if w.resetDb && !w.truncatesOk then ⟨some "sql error", false, false⟩
  else if !w.execOk then ⟨some "exec failed", false, false⟩
  else ⟨none, true, false⟩

/-! ## Tunnel model (claims C1, C4, C5)

The `TCPTunnelClient` internals live in `tcp-tunnel.ts`, which is not among
the sources; only its construction sites are.  The Session forwarding
behaviour below is therefore modelled from the specification. -/

/-- Lifecycle states of a Session, from the spec state machine. -/
inductive SessionPhase where
  | starting
  | forwarding
  | closing
  | closed
deriving DecidableEq

/-- Modelled from the spec: one forwarding direction of a Session reads
chunks from its source until EOF and writes everything read to its
destination, in order, with no reinterpretation. -/
def pumpChunks : List (List Nat) → List (List Nat) → List (List Nat)
  | [], dest => dest
  | c :: cs, dest => pumpChunks cs (dest ++ [c])

/-- Modelled from the spec: a Session pairs one local socket with one
remote channel; `localSrc` and `remoteSrc` are the chunk sequences still
to be read from each peer, `toRemote` and `toLocal` the chunk sequences
already delivered to each destination. -/
structure Session where
  phase : SessionPhase
  localSrc : List (List Nat)
  remoteSrc : List (List Nat)
  toRemote : List (List Nat)
  toLocal : List (List Nat)
deriving DecidableEq

/-- Modelled from the spec: on accept, the Session enters `forwarding`
with nothing delivered yet. -/
def sessionStart (localChunks remoteChunks : List (List Nat)) : Session :=
  ⟨.forwarding, localChunks, remoteChunks, [], []⟩

/-- Modelled from the spec: in `forwarding`, the two directions pump until
both sources reach EOF, after which the Session releases both endpoints
and ends `closed`. -/
def sessionRun (s : Session) : Session :=
  match s.phase with
  | .forwarding =>
    ⟨.closed, [], [],
     pumpChunks s.localSrc s.toRemote,
     pumpChunks s.remoteSrc s.toLocal⟩
  | _ => s

/-- Modelled from the spec: a forwarding direction in which the delivery of
the k-th chunk hits a transport error.  Errors terminate the Session; the
failing chunk is not re-attempted and nothing after it is delivered (no
automatic retry at the byte level).  Returns the chunks delivered and
whether an error occurred. -/
def pumpUntilFailure : List (List Nat) → Option Nat → List (List Nat) × Bool
  | [], _ => ([], false)
  | _ :: _, some 0 => ([], true)
  | c :: cs, some (k + 1) =>
    let rest := pumpUntilFailure cs (some k)
    (c :: rest.1, rest.2)
  | c :: cs, none =>
    let rest := pumpUntilFailure cs none
    (c :: rest.1, rest.2)

/-- State of several concurrent Sessions over one TunnelClient: per session
and per direction (`true` is local-to-remote), the bytes still pending at
the source and the bytes already delivered.  Modelled from the spec: no
state is shared between Sessions. -/
structure NetState (n : Nat) where
  pend : Fin n → Bool → List Nat
  out : Fin n → Bool → List Nat

/-- Initial state: every stream fully pending, nothing delivered. -/
def initNet {n : Nat} (inputs : Fin n → Bool → List Nat) : NetState n :=
  ⟨inputs, fun _ _ => []⟩

/-- Modelled from the spec: one scheduler step delivers the next pending
byte of the chosen Session and direction; every other stream is
untouched because each Session exclusively owns its socket and channel. -/
def stepNet {n : Nat} (s : NetState n) (ev : Fin n × Bool) : NetState n :=
  ⟨fun i d => if i = ev.1 ∧ d = ev.2 then (s.pend i d).tail else s.pend i d,
   fun i d =>
     if i = ev.1 ∧ d = ev.2 then s.out i d ++ (s.pend i d).take 1
     else s.out i d⟩

/-- Run the concurrent Sessions under an arbitrary interleaving `tr`. -/
def runNet {n : Nat} (inputs : Fin n → Bool → List Nat)
    (tr : List (Fin n × Bool)) : NetState n :=
  tr.foldl stepNet (initNet inputs)

/-! ## coolify.ts: tunnel construction sites (claim C5) -/

/-- Constructor arguments of `TCPTunnelClient` as visible at both call
sites: a remote URL, a local port, and an auth token — nothing else, in
particular no fetch wrapper and no retry policy. -/
structure TunnelArgs where
  url : String
  localPort : Nat
  token : String
deriving DecidableEq

/-- From `Coolify.updateSecrets`: the tunnel is constructed as
`new TCPTunnelClient(supabase_api_url + "/" + serviceUUID + "/postgres",
5432, deployToken)`. -/
def updateSecretsTunnelArgs (supabase_api_url serviceUUID deployToken : String) :
    TunnelArgs :=
  ⟨supabase_api_url ++ "/" ++ serviceUUID ++ "/postgres", 5432, deployToken⟩

/-- From `Coolify.pushMigrations`: the tunnel is constructed with the same
three arguments. -/
def pushMigrationsTunnelArgs (supabase_api_url serviceUUID deployToken : String) :
    TunnelArgs :=
  ⟨supabase_api_url ++ "/" ++ serviceUUID ++ "/postgres", 5432, deployToken⟩

/-- From the `Coolify` constructor: the control-plane API client is created
with `fetch: createRetryFetch(globalThis.fetch)`, i.e. the retry wrapper
with its default `maxRetries = 5` and `initialDelayMs = 1000`. -/
def coolifyClientFetch {R : Type} (base : Nat → Except Thrown R) : RetryResult R :=
  createRetryFetch base 5 1000

/-! # Theorems -/

/-- C8: the `ephemeral` action input is interpreted inconsistently by
`run()`: for the input `TRUE` (lowercase form `true` but not exactly
`true`) the deployment name is generated with the random UUID suffix
while `createDeployment` receives `ephemeral = false`; the two
interpretations agree exactly when the input is `true` verbatim or its
lowercase form is not `true`. -/
theorem ephemeral_input_inconsistent :
    (ephemeralNameMode "TRUE" = true ∧ ephemeralFlag "TRUE" = false
      ∧ deploymentName "TRUE" "main" "u1" = "main" ++ "-" ++ "u1")
    ∧ ∀ s : String,
        (ephemeralNameMode s = ephemeralFlag s
          ↔ (s = "true" ∨ jsToLowerCase s ≠ "true")) := by
  refine ⟨⟨by decide, by decide, by decide⟩, ?_⟩
  intro s
  by_cases hs : s = "true"
  · subst hs
    exact ⟨fun _ => Or.inl rfl, fun _ => by decide⟩
  · by_cases hl : jsToLowerCase s = "true"
    · have h1 : ephemeralNameMode s = true := by
        simp [ephemeralNameMode, hl]
      have h2 : ephemeralFlag s = false := by
        simp [ephemeralFlag, hs]
      rw [h1, h2]
      simp [hs, hl]
    · have h1 : ephemeralNameMode s = false := by
        simp [ephemeralNameMode, hl]
      have h2 : ephemeralFlag s = false := by
        simp [ephemeralFlag, hs]
      rw [h1, h2]
      simp [hs, hl]

/-- C9 counterexample: with a deployments list whose first sha-matching
entry has status `failed` and whose second has status `running`, the
method returns `false` although the list does contain an entry with
matching commit and in-progress status, refuting the claimed
characterisation. -/
theorem checkIfDeploymentUnderway_first_match_only :
    checkIfDeploymentUnderway "abc"
      (.ok [⟨"abc", "failed"⟩, ⟨"abc", "running"⟩]) = false
    ∧ ∃ d, d ∈ ([⟨"abc", "failed"⟩, ⟨"abc", "running"⟩] : List Deployment)
        ∧ (d.commit = "abc" ∨ d.commit = "HEAD")
        ∧ d.status ∈ inProgressStatuses := by
  refine ⟨by decide, ⟨⟨"abc", "running"⟩, by decide, Or.inl rfl, by decide⟩⟩

/-- C9 amended: `checkIfDeploymentUnderway` returns `true` iff the API
call returned a deployments list in which the first entry whose commit
equals the sha or `HEAD` has a status among the in-progress statuses; in
every other case — no data, no matching entry, or an API exception — it
returns `false` and never propagates an error. -/
theorem checkIfDeploymentUnderway_spec (sha : String) :
    (∀ o : DeploymentsApiOutcome,
      checkIfDeploymentUnderway sha o = true
        ↔ ∃ ds d, o = .ok ds
            ∧ ds.find? (fun x => x.commit == sha || x.commit == "HEAD") = some d
            ∧ d.status ∈ inProgressStatuses)
    ∧ checkIfDeploymentUnderway sha .apiError = false
    ∧ checkIfDeploymentUnderway sha .noData = false := by
  refine ⟨?_, rfl, rfl⟩
  intro o
  cases o with
  | apiError =>
    simp only [checkIfDeploymentUnderway]
    constructor
    · intro h; exact absurd h (by decide)
    · rintro ⟨ds, d, h, -⟩; exact DeploymentsApiOutcome.noConfusion h
  | noData =>
    simp only [checkIfDeploymentUnderway]
    constructor
    · intro h; exact absurd h (by decide)
    · rintro ⟨ds, d, h, -⟩; exact DeploymentsApiOutcome.noConfusion h
  | ok ds =>
    simp only [checkIfDeploymentUnderway]
    cases hf : ds.find? (fun x => x.commit == sha || x.commit == "HEAD") with
    | none =>
      constructor
      · intro h; exact absurd h (by decide)
      · rintro ⟨ds', d, hok, hfind, -⟩
        obtain rfl : ds = ds' := by injection hok
        rw [hf] at hfind
        exact Option.noConfusion hfind
    | some d =>
      constructor
      · intro h
        refine ⟨ds, d, rfl, hf, ?_⟩
        simpa [List.contains_iff_exists_mem_beq, beq_iff_eq] using h
      · rintro ⟨ds', d', hok, hfind, hmem⟩
        obtain rfl : ds = ds' := by injection hok
        rw [hf] at hfind
        obtain rfl : d = d' := by injection hfind
        simpa [List.contains_iff_exists_mem_beq, beq_iff_eq] using hmem

/-- C10: `createEnvsForService` processes its env list in order: when every
env before `e` is either non-falsy or optional and `e` has a falsy value,
then if `e` is not optional the run throws `Env <key> has no value` having
performed create-or-update calls exactly for the earlier non-falsy envs and
none for `e` or anything later, and if `e` is optional it is skipped and
processing continues with the remaining envs. -/
theorem createEnvsForService_order (pre post : List EnvEntry) (e : EnvEntry)
    (hpre : ∀ x ∈ pre, envValueFalsy x.value = true → x.optional = true)
    (hfalsy : envValueFalsy e.value = true) :
    (e.optional = false →
      createEnvsForService (pre ++ e :: post)
        = ⟨(pre.filter (fun x => !envValueFalsy x.value)).map EnvEntry.key,
           some ("Env " ++ e.key ++ " has no value")⟩)
    ∧ (e.optional = true →
      createEnvsForService (pre ++ e :: post)
        = createEnvsForService (pre ++ post)) := by
  induction pre with
  | nil =>
    constructor
    · intro hopt
      simp only [List.nil_append, createEnvsForService, hfalsy, hopt]
      rfl
    · intro hopt
      simp only [List.nil_append, createEnvsForService, hfalsy, hopt]
      simp
  | cons x xs ih =>
    have hx := hpre x (List.mem_cons_self x xs)
    have ihx := ih (fun y hy => hpre y (List.mem_cons_of_mem x hy))
    constructor
    · intro hopt
      by_cases hfx : envValueFalsy x.value = true
      · have hox : x.optional = true := hx hfx
        simp only [List.cons_append, createEnvsForService, hfx, hox, if_true,
          List.append_eq]
        rw [ihx.1 hopt]
        simp [List.filter, hfx]
      · simp only [List.cons_append, createEnvsForService,
          Bool.not_eq_true] at hfx ⊢
        rw [hfx]
        simp only [Bool.false_eq_true, if_false, List.append_eq]
        rw [ihx.1 hopt]
        simp [List.filter, hfx]
    · intro hopt
      by_cases hfx : envValueFalsy x.value = true
      · have hox : x.optional = true := hx hfx
        simp only [List.cons_append, createEnvsForService, hfx, hox, if_true,
          List.append_eq]
        exact ihx.2 hopt
      · simp only [Bool.not_eq_true] at hfx
        simp only [List.cons_append, createEnvsForService, hfx]
        simp only [Bool.false_eq_true, if_false, List.append_eq]
        rw [ihx.2 hopt]

/-- C10 witness: a concrete run with a non-falsy env, a skipped optional
falsy env, then a falsy required env followed by a later env: the run
throws for the required env, having called create-or-update only for the
first env. -/
theorem createEnvsForService_order_witness :
    (∀ x ∈ ([⟨"A", some "v", false⟩, ⟨"B", none, true⟩] : List EnvEntry),
        envValueFalsy x.value = true → x.optional = true)
    ∧ envValueFalsy (none : Option String) = true
    ∧ createEnvsForService
        ([⟨"A", some "v", false⟩, ⟨"B", none, true⟩]
          ++ (⟨"C", none, false⟩ : EnvEntry) :: [⟨"D", some "w", false⟩])
        = ⟨["A"], some ("Env " ++ "C" ++ " has no value")⟩ :=
  ⟨by decide, by decide,
   (createEnvsForService_order
      [⟨"A", some "v", false⟩, ⟨"B", none, true⟩]
      [⟨"D", some "w", false⟩]
      ⟨"C", none, false⟩ (by decide) (by decide)).1 rfl⟩

/-- C2 refutation at the code level: with `tunnel.connect()` succeeding and
the edge-function-secret vault lookup returning zero rows, `updateSecrets`
throws without ever invoking `tunnel.disconnect()`; with a failing `exec`,
`pushMigrations` also propagates without invoking it; and even on the
success path `pushMigrations` invokes `tunnel.disconnect()` without
awaiting it, so it need not complete before the method returns. -/
theorem tunnel_disconnect_not_on_every_exit :
    ((updateSecretsRun ⟨true, .ok none, .ok (some "u"), true, true⟩).err
        = some "Edge function secret not found in vault"
      ∧ (updateSecretsRun ⟨true, .ok none, .ok (some "u"), true, true⟩).disconnectCalled
        = false)
    ∧ ((pushMigrationsRun ⟨true, false, true, false⟩).err = some "exec failed"
      ∧ (pushMigrationsRun ⟨true, false, true, false⟩).disconnectCalled = false)
    ∧ ((pushMigrationsRun ⟨true, false, true, true⟩).disconnectCalled = true
      ∧ (pushMigrationsRun ⟨true, false, true, true⟩).disconnectAwaited = false)
    ∧ (updateSecretsRun ⟨true, .ok (some "e"), .ok (some "u"), true, true⟩).disconnectAwaited
        = true := by
  decide

/-- C6: in both tunnel-using methods the awaited `tunnel.connect()` event
is present, a use of `localhost:<localPort>` is present, and every event
preceding the first awaited connect is not a local-port use — so the
awaited `connect()` resolves before the postgres client is created or the
migration command is run, for both values of `resetDb`. -/
theorem tunnel_connect_awaited_before_local_use :
    (updateSecretsTrace.contains (.awaitTunnelConnect) = true
      ∧ (updateSecretsTrace.takeWhile (fun e => e != .awaitTunnelConnect)).all
          (fun e => !usesLocalPort e) = true
      ∧ updateSecretsTrace.any usesLocalPort = true)
    ∧ ∀ b : Bool,
        ((pushMigrationsTrace b).contains (.awaitTunnelConnect) = true
          ∧ ((pushMigrationsTrace b).takeWhile
              (fun e => e != .awaitTunnelConnect)).all
              (fun e => !usesLocalPort e) = true
          ∧ (pushMigrationsTrace b).any usesLocalPort = true) := by
  decide

/-- Poll k happens before the expiration timer fires exactly when its
scheduled time `5000 * k` is below the timeout in milliseconds. -/
theorem lt_maxPollCount_iff (timeoutMs k : Nat) :
    k < maxPollCount timeoutMs ↔ pollIntervalMs * k < timeoutMs := by
  unfold maxPollCount pollIntervalMs
  omega

/-- C7: `waitUntilServiceIsReady` is a polling loop with explicit timeout,
interval and success predicate: the interval timer is cleared in both
outcomes; the promise resolves exactly when some poll scheduled before the
timeout observes status `running:healthy`; otherwise it rejects with the
timeout message after `timeout_seconds` seconds; and omitting
`timeout_seconds` behaves as the default 1200 seconds. -/
theorem waitUntilServiceIsReady_spec (uuid : String) (t : Option Nat)
    (statusAt : Nat → Option String) :
    ((waitUntilServiceIsReady uuid t statusAt).intervalCleared = true)
    ∧ ((waitUntilServiceIsReady uuid t statusAt).resolved = true
        ↔ ∃ k, pollIntervalMs * k < (t.getD 1200) * 1000
            ∧ statusAt k = some "running:healthy")
    ∧ ((waitUntilServiceIsReady uuid t statusAt).resolved = false
        ↔ (waitUntilServiceIsReady uuid t statusAt).rejectedWith
            = some ("Timeout waiting for service " ++ uuid ++ " to be ready"))
    ∧ waitUntilServiceIsReady uuid none statusAt
        = waitUntilServiceIsReady uuid (some 1200) statusAt := by
  unfold waitUntilServiceIsReady
  dsimp only
  rcases hf : (List.range (maxPollCount ((t.getD 1200) * 1000))).find?
      (fun k => statusAt k == some "running:healthy") with - | v
  · refine ⟨rfl, ?_, by simp, rfl⟩
    constructor
    · intro h
      exact absurd h (by simp)
    · rintro ⟨k, hk, hst⟩
      have hmem : k ∈ List.range (maxPollCount ((t.getD 1200) * 1000)) :=
        List.mem_range.mpr ((lt_maxPollCount_iff _ k).mpr hk)
      have hnone := List.find?_eq_none.mp hf k hmem
      rw [hst] at hnone
      simp at hnone
  · refine ⟨rfl, ?_, by simp, rfl⟩
    constructor
    · intro _
      have hmem := List.mem_of_find?_eq_some hf
      have hp := List.find?_some hf
      refine ⟨v, (lt_maxPollCount_iff _ v).mp (List.mem_range.mp hmem), ?_⟩
      simpa using hp
    · intro _
      rfl

/-- Pumping appends the remaining source chunks to the destination. -/
theorem pumpChunks_eq_append (cs dest : List (List Nat)) :
    pumpChunks cs dest = dest ++ cs := by
  induction cs generalizing dest with
  | nil => simp [pumpChunks]
  | cons c cs ih => simp [pumpChunks, ih]

/-- C1: once a Session has entered `forwarding`, the remote peer observes
exactly the byte sequence the local peer wrote — the same bytes, in the
same order, with no gaps and no duplication — and symmetrically the local
peer observes exactly the bytes of the remote peer; the Session then ends
`closed`. -/
theorem session_forwarding_byte_exact
    (localChunks remoteChunks : List (List Nat)) :
    (sessionStart localChunks remoteChunks).phase = .forwarding
    ∧ (sessionRun (sessionStart localChunks remoteChunks)).toRemote.flatten
        = localChunks.flatten
    ∧ (sessionRun (sessionStart localChunks remoteChunks)).toLocal.flatten
        = remoteChunks.flatten
    ∧ (sessionRun (sessionStart localChunks remoteChunks)).phase = .closed := by
  refine ⟨rfl, ?_, ?_, rfl⟩ <;>
    simp [sessionRun, sessionStart, pumpChunks_eq_append]

/-- One scheduler step keeps the delivered-plus-pending bytes of each stream
unchanged. -/
theorem stepNet_out_append_pend {n : Nat} (s : NetState n)
    (ev : Fin n × Bool) (j : Fin n) (d : Bool) :
    (stepNet s ev).out j d ++ (stepNet s ev).pend j d
      = s.out j d ++ s.pend j d := by
  unfold stepNet
  by_cases hc : j = ev.1 ∧ d = ev.2
  · simp only [if_pos hc]
    cases s.pend j d <;> simp
  · simp only [if_neg hc]

/-- Running any interleaving keeps the delivered-plus-pending bytes of
each stream unchanged. -/
theorem runNet_out_append_pend {n : Nat} (tr : List (Fin n × Bool))
    (s : NetState n) (j : Fin n) (d : Bool) :
    (tr.foldl stepNet s).out j d ++ (tr.foldl stepNet s).pend j d
      = s.out j d ++ s.pend j d := by
  induction tr generalizing s with
  | nil => rfl
  | cons ev tl ih =>
    rw [List.foldl_cons, ih, stepNet_out_append_pend]

/-- One scheduler step only reads and writes the streams of the stepped
session: if two states agree on session j, they still agree after any
step. -/
theorem stepNet_local {n : Nat} (s t : NetState n) (ev : Fin n × Bool)
    (j : Fin n) (hp : ∀ d, s.pend j d = t.pend j d)
    (ho : ∀ d, s.out j d = t.out j d) :
    (∀ d, (stepNet s ev).pend j d = (stepNet t ev).pend j d)
    ∧ (∀ d, (stepNet s ev).out j d = (stepNet t ev).out j d) := by
  constructor <;> intro d <;> unfold stepNet <;> dsimp only <;>
    by_cases hc : j = ev.1 ∧ d = ev.2
  · rw [if_pos hc, if_pos hc, hp d]
  · rw [if_neg hc, if_neg hc, hp d]
  · rw [if_pos hc, if_pos hc, hp d, ho d]
  · rw [if_neg hc, if_neg hc, ho d]

/-- Running any interleaving only lets the streams of session j depend on
the input of session j itself: if two states agree on session j, the states after
the run agree on session j. -/
theorem runNet_local {n : Nat} (tr : List (Fin n × Bool)) (s t : NetState n)
    (j : Fin n) (hp : ∀ d, s.pend j d = t.pend j d)
    (ho : ∀ d, s.out j d = t.out j d) :
    (∀ d, (tr.foldl stepNet s).pend j d = (tr.foldl stepNet t).pend j d)
    ∧ (∀ d, (tr.foldl stepNet s).out j d = (tr.foldl stepNet t).out j d) := by
  induction tr generalizing s t with
  | nil => exact ⟨hp, ho⟩
  | cons ev tl ih =>
    rw [List.foldl_cons, List.foldl_cons]
    obtain ⟨hp2, ho2⟩ := stepNet_local s t ev j hp ho
    exact ih (stepNet s ev) (stepNet t ev) hp2 ho2

/-- C4: concurrent Sessions over one TunnelClient are isolated.  For any
number n ≥ 2 of concurrent local connections, any scheduling of byte
deliveries, and any two distinct Sessions i and j: every byte sequence
delivered within Session j is a prefix of the source stream owned by Session j,
and it is unchanged when the streams of every other Session — in
particular Session i — are replaced arbitrarily, so no byte forwarded
within Session i ever appears in the local-to-remote or
remote-to-local stream of Session j. -/
theorem tunnel_session_isolation (n : Nat) (hn : 2 ≤ n)
    (inputs altInputs : Fin n → Bool → List Nat)
    (tr : List (Fin n × Bool)) (i j : Fin n) (hij : i ≠ j)
    (hagree : ∀ d, inputs j d = altInputs j d) (d : Bool) :
    (runNet inputs tr).out j d <+: inputs j d
    ∧ (runNet inputs tr).out j d = (runNet altInputs tr).out j d := by
  constructor
  · refine ⟨(runNet inputs tr).pend j d, ?_⟩
    have h := runNet_out_append_pend tr (initNet inputs) j d
    simpa [runNet, initNet] using h
  · exact (runNet_local tr (initNet inputs) (initNet altInputs) j
      (fun d => hagree d) (fun _ => rfl)).2 d

/-- Concrete inputs for two concurrent sessions. -/
def isoInputsA : Fin 2 → Bool → List Nat := fun i d =>
  if i = 0 then (if d then [1, 2] else [5]) else (if d then [3, 4] else [6])

/-- The same inputs with the streams of session 0 replaced. -/
def isoInputsB : Fin 2 → Bool → List Nat := fun i d =>
  if i = 0 then (if d then [9] else [8, 8]) else (if d then [3, 4] else [6])

/-- A concrete interleaving of deliveries across the two sessions. -/
def isoTrace : List (Fin 2 × Bool) :=
  [(0, true), (1, true), (0, false), (1, true)]

/-- C4 witness: the isolation theorem applied to two concrete concurrent
sessions, an interleaved schedule, and a replacement of the streams of
session 0. -/
theorem tunnel_session_isolation_witness :
    (2 ≤ 2 ∧ (0 : Fin 2) ≠ (1 : Fin 2)
      ∧ ∀ d, isoInputsA 1 d = isoInputsB 1 d)
    ∧ ((runNet isoInputsA isoTrace).out 1 true <+: isoInputsA 1 true
      ∧ (runNet isoInputsA isoTrace).out 1 true
          = (runNet isoInputsB isoTrace).out 1 true) :=
  ⟨⟨by decide, by decide, fun d => by cases d <;> rfl⟩,
   tunnel_session_isolation 2 (by decide) isoInputsA isoInputsB isoTrace
     0 1 (by decide) (fun d => by cases d <;> rfl) true⟩

/-- The retry loop performs at least one base-fetch attempt. -/
theorem retryFetchAux_attempts_pos {R : Type} (base : Nat → Except Thrown R)
    (remaining : Nat) :
    ∀ attempt delay,
      1 ≤ (retryFetchAux base attempt delay remaining).attempts := by
  induction remaining with
  | zero =>
    intro a d
    simp only [retryFetchAux]
    cases hb : base a <;> simp
  | succ m ih =>
    intro a d
    simp only [retryFetchAux]
    cases hb : base a with
    | ok r => simp
    | error e =>
      by_cases hre : isConnectionTimeoutError e = true <;> simp [hre]

/-- The retry loop performs at most `remaining + 1` base-fetch attempts. -/
theorem retryFetchAux_attempts_le {R : Type} (base : Nat → Except Thrown R)
    (remaining : Nat) :
    ∀ attempt delay,
      (retryFetchAux base attempt delay remaining).attempts ≤ remaining + 1 := by
  induction remaining with
  | zero =>
    intro a d
    simp only [retryFetchAux]
    cases hb : base a <;> simp
  | succ m ih =>
    intro a d
    simp only [retryFetchAux]
    cases hb : base a with
    | ok r => simp
    | error e =>
      by_cases hre : isConnectionTimeoutError e = true
      · simp only [hre, if_true]
        have := ih (a + 1) (min (d * 2) 30000)
        omega
      · simp [hre]

/-- Shifting the starting delay by one doubling step shifts the whole
backoff sequence. -/
theorem delayAt_shift (d : Nat) :
    ∀ k, delayAt (min (d * 2) 30000) k = delayAt d (k + 1) := by
  intro k
  induction k with
  | zero => rfl
  | succ m ih => simp only [delayAt, ih]

/-- The waits performed by the retry loop follow the capped doubling
sequence that starts at the current delay. -/
theorem retryFetchAux_delays {R : Type} (base : Nat → Except Thrown R)
    (remaining : Nat) :
    ∀ attempt delay,
      (retryFetchAux base attempt delay remaining).delays
        = (List.range
            ((retryFetchAux base attempt delay remaining).attempts - 1)).map
            (delayAt delay) := by
  induction remaining with
  | zero =>
    intro a d
    simp only [retryFetchAux]
    cases hb : base a <;> simp
  | succ m ih =>
    intro a d
    simp only [retryFetchAux]
    cases hb : base a with
    | ok r => simp
    | error e =>
      by_cases hre : isConnectionTimeoutError e = true
      · simp only [hre, if_true]
        have hpos := retryFetchAux_attempts_pos base m (a + 1) (min (d * 2) 30000)
        obtain ⟨k, hk⟩ :
            ∃ k, (retryFetchAux base (a + 1) (min (d * 2) 30000) m).attempts
              = k + 1 :=
          ⟨_, (Nat.succ_pred_eq_of_pos hpos).symm⟩
        rw [ih (a + 1) (min (d * 2) 30000), hk]
        simp only [Nat.add_sub_cancel]
        rw [List.range_succ_eq_map, List.map_cons, List.map_map]
        congr 1
        apply List.map_congr_left
        intro x _
        exact delayAt_shift d x
      · simp [hre]

/-- Every attempt before the last one failed with a retryable error. -/
theorem retryFetchAux_mid {R : Type} (base : Nat → Except Thrown R)
    (remaining : Nat) :
    ∀ attempt delay i,
      i + 1 < (retryFetchAux base attempt delay remaining).attempts →
      ∃ e, base (attempt + i) = .error e
        ∧ isConnectionTimeoutError e = true := by
  induction remaining with
  | zero =>
    intro a d i
    simp only [retryFetchAux]
    rcases hb : base a with e | r <;> dsimp only <;> intro h <;> omega
  | succ m ih =>
    intro a d i
    simp only [retryFetchAux]
    rcases hb : base a with e | r
    · by_cases hre : isConnectionTimeoutError e = true
      · simp only [hre, if_true]
        intro h
        cases i with
        | zero => exact ⟨e, by simpa using hb, hre⟩
        | succ i2 =>
          have h2 : i2 + 1
              < (retryFetchAux base (a + 1) (min (d * 2) 30000) m).attempts := by
            omega
          obtain ⟨e2, he2, hre2⟩ := ih (a + 1) (min (d * 2) 30000) i2 h2
          refine ⟨e2, ?_, hre2⟩
          rw [show a + (i2 + 1) = a + 1 + i2 by omega]
          exact he2
      · simp only [hre, Bool.false_eq_true, if_false]
        intro h
        omega
    · dsimp only
      intro h
      omega

/-- When the wrapped fetch throws, it throws the error of the last attempt,
and it stopped either because that error was not retryable or because the
attempt budget was exhausted. -/
theorem retryFetchAux_error_last {R : Type} (base : Nat → Except Thrown R)
    (remaining : Nat) :
    ∀ attempt delay e,
      (retryFetchAux base attempt delay remaining).result = .error e →
      base (attempt + ((retryFetchAux base attempt delay remaining).attempts - 1))
          = .error e
      ∧ (isConnectionTimeoutError e = false
          ∨ (retryFetchAux base attempt delay remaining).attempts
              = remaining + 1) := by
  induction remaining with
  | zero =>
    intro a d e
    simp only [retryFetchAux]
    rcases hb : base a with e2 | r <;> dsimp only <;> intro h
    · obtain rfl : e2 = e := by injection h
      exact ⟨by simpa using hb, Or.inr rfl⟩
    · exact absurd h (by simp)
  | succ m ih =>
    intro a d e
    simp only [retryFetchAux]
    rcases hb : base a with e2 | r
    · by_cases hre : isConnectionTimeoutError e2 = true
      · simp only [hre, if_true]
        intro h
        have hpos := retryFetchAux_attempts_pos base m (a + 1) (min (d * 2) 30000)
        obtain ⟨k, hk⟩ :
            ∃ k, (retryFetchAux base (a + 1) (min (d * 2) 30000) m).attempts
              = k + 1 :=
          ⟨_, (Nat.succ_pred_eq_of_pos hpos).symm⟩
        obtain ⟨hbase, hor⟩ := ih (a + 1) (min (d * 2) 30000) e h
        rw [hk] at hbase hor ⊢
        constructor
        · rw [show a + (k + 1 + 1 - 1) = a + 1 + (k + 1 - 1) by omega]
          exact hbase
        · rcases hor with hor | hor
          · exact Or.inl hor
          · exact Or.inr (by omega)
      · simp only [hre, Bool.false_eq_true, if_false]
        intro h
        obtain rfl : e2 = e := by injection h
        refine ⟨by simpa using hb, Or.inl ?_⟩
        simpa using hre
    · dsimp only
      intro h
      exact absurd h (by simp)

/-- When the wrapped fetch returns a value, it is the value of the last
attempt. -/
theorem retryFetchAux_ok_last {R : Type} (base : Nat → Except Thrown R)
    (remaining : Nat) :
    ∀ attempt delay v,
      (retryFetchAux base attempt delay remaining).result = .ok v →
      base (attempt + ((retryFetchAux base attempt delay remaining).attempts - 1))
          = .ok v := by
  induction remaining with
  | zero =>
    intro a d v
    simp only [retryFetchAux]
    rcases hb : base a with e2 | r <;> dsimp only <;> intro h
    · exact absurd h (by simp)
    · obtain rfl : r = v := by injection h
      simpa using hb
  | succ m ih =>
    intro a d v
    simp only [retryFetchAux]
    rcases hb : base a with e2 | r
    · by_cases hre : isConnectionTimeoutError e2 = true
      · simp only [hre, if_true]
        intro h
        have hpos := retryFetchAux_attempts_pos base m (a + 1) (min (d * 2) 30000)
        obtain ⟨k, hk⟩ :
            ∃ k, (retryFetchAux base (a + 1) (min (d * 2) 30000) m).attempts
              = k + 1 :=
          ⟨_, (Nat.succ_pred_eq_of_pos hpos).symm⟩
        have hbase := ih (a + 1) (min (d * 2) 30000) v h
        rw [hk] at hbase ⊢
        rw [show a + (k + 1 + 1 - 1) = a + 1 + (k + 1 - 1) by omega]
        exact hbase
      · simp only [hre, Bool.false_eq_true, if_false]
        intro h
        exact absurd h (by simp)
    · dsimp only
      intro h
      obtain rfl : r = v := by injection h
      simpa using hb

/-- C3: behaviour of the wrapped fetch produced by
`createRetryFetch(baseFetch, maxRetries, initialDelayMs)`: at most
`maxRetries + 1` base attempts are made (6 with the default 5); the waits
performed are the backoff sequence starting at `initialDelayMs`, doubling
after each retry and capped at 30000 ms, one wait per retry; every
non-final attempt failed with an error classified retryable by
`isConnectionTimeoutError`, so a non-retryable error is rethrown
immediately with no further attempt; when the wrapped fetch throws, the
error is that of the last attempt and the loop stopped either because
that error was non-retryable or because the budget was exhausted; and a
returned value is the value of the last attempt. -/
theorem createRetryFetch_spec {R : Type} (base : Nat → Except Thrown R)
    (maxRetries initialDelayMs : Nat) :
    ((createRetryFetch base maxRetries initialDelayMs).attempts ≤ maxRetries + 1
      ∧ 1 ≤ (createRetryFetch base maxRetries initialDelayMs).attempts)
    ∧ (createRetryFetch base maxRetries initialDelayMs).delays
        = (List.range
            ((createRetryFetch base maxRetries initialDelayMs).attempts - 1)).map
            (delayAt initialDelayMs)
    ∧ (∀ i, i + 1 < (createRetryFetch base maxRetries initialDelayMs).attempts →
        ∃ e, base i = .error e ∧ isConnectionTimeoutError e = true)
    ∧ (∀ e, (createRetryFetch base maxRetries initialDelayMs).result = .error e →
        base ((createRetryFetch base maxRetries initialDelayMs).attempts - 1)
            = .error e
        ∧ (isConnectionTimeoutError e = false
            ∨ (createRetryFetch base maxRetries initialDelayMs).attempts
                = maxRetries + 1))
    ∧ (∀ v, (createRetryFetch base maxRetries initialDelayMs).result = .ok v →
        base ((createRetryFetch base maxRetries initialDelayMs).attempts - 1)
            = .ok v) := by
  simp only [createRetryFetch]
  refine ⟨⟨retryFetchAux_attempts_le base maxRetries 0 initialDelayMs,
          retryFetchAux_attempts_pos base maxRetries 0 initialDelayMs⟩,
         retryFetchAux_delays base maxRetries 0 initialDelayMs, ?_, ?_, ?_⟩
  · intro i h
    have := retryFetchAux_mid base maxRetries 0 initialDelayMs i h
    simpa using this
  · intro e h
    have := retryFetchAux_error_last base maxRetries 0 initialDelayMs e h
    simpa using this
  · intro v h
    have := retryFetchAux_ok_last base maxRetries 0 initialDelayMs v h
    simpa using this

/-- A base fetch whose first attempt fails with a retryable connection
error and whose later attempts succeed. -/
def retryBaseEx : Nat → Except Thrown Nat := fun k =>
  if k = 0 then .error (.err (some "ECONNREFUSED") "connect ECONNREFUSED")
  else .ok 7

/-- C3 witness: on the concrete flaky base fetch with the default
`maxRetries = 5`, the wrapped fetch returns the value of its last attempt
within the six-attempt budget, retrying once after the initial 1000 ms
wait. -/
theorem createRetryFetch_spec_witness :
    (createRetryFetch retryBaseEx 5 1000).result = Except.ok 7
    ∧ retryBaseEx ((createRetryFetch retryBaseEx 5 1000).attempts - 1)
        = Except.ok 7
    ∧ (createRetryFetch retryBaseEx 5 1000).attempts ≤ 5 + 1
    ∧ (createRetryFetch retryBaseEx 5 1000).delays = [1000] :=
  ⟨rfl,
   (createRetryFetch_spec retryBaseEx 5 1000).2.2.2.2 7 rfl,
   (createRetryFetch_spec retryBaseEx 5 1000).1.1,
   rfl⟩

/-- Without a transport error the pump delivers every chunk, once, in
order. -/
theorem pumpUntilFailure_none (chunks : List (List Nat)) :
    pumpUntilFailure chunks none = (chunks, false) := by
  induction chunks with
  | nil => rfl
  | cons c cs ih => simp [pumpUntilFailure, ih]

/-- A delivery failure at position k truncates the delivered stream to the
first k chunks: the failed chunk is never re-attempted. -/
theorem pumpUntilFailure_take (chunks : List (List Nat)) :
    ∀ k, (pumpUntilFailure chunks (some k)).1 = chunks.take k := by
  induction chunks with
  | nil => intro k; simp [pumpUntilFailure]
  | cons c cs ih =>
    intro k
    cases k with
    | zero => rfl
    | succ k2 => simp [pumpUntilFailure, ih k2]

/-- The pump never duplicates a chunk: each chunk is delivered at most as
often as it occurs at the source. -/
theorem pumpUntilFailure_count (chunks : List (List Nat))
    (failAt : Option Nat) (c : List Nat) :
    ((pumpUntilFailure chunks failAt).1).count c ≤ chunks.count c := by
  cases failAt with
  | none => rw [pumpUntilFailure_none]
  | some k =>
    rw [pumpUntilFailure_take chunks k]
    exact (List.take_sublist k chunks).count_le c

/-- C5: no automatic retry exists inside the tunnel itself.  The
control-plane client built by the `Coolify` constructor is exactly the
retry-wrapped base fetch with the default `maxRetries = 5` and
`initialDelayMs = 1000` — and it does retry a retryable failure — while
both `TCPTunnelClient` constructions receive only the remote URL, the
local port 5432 and the deploy token, never a retry wrapper; and the
modelled tunnel forwarding is retry-free: with no failure every chunk is
delivered exactly once in order, a failing delivery truncates the stream
at the failed chunk without re-attempting it, and no chunk is ever
delivered more often than it occurs at the source. -/
theorem tunnel_forwarding_retry_free :
    (∀ base : Nat → Except Thrown Nat,
        coolifyClientFetch base = createRetryFetch base 5 1000)
    ∧ ((coolifyClientFetch retryBaseEx).attempts = 2
        ∧ (coolifyClientFetch retryBaseEx).result = .ok 7)
    ∧ (∀ u s t, updateSecretsTunnelArgs u s t
          = ⟨u ++ "/" ++ s ++ "/postgres", 5432, t⟩
        ∧ pushMigrationsTunnelArgs u s t = updateSecretsTunnelArgs u s t)
    ∧ (∀ chunks, pumpUntilFailure chunks none = (chunks, false))
    ∧ (∀ chunks k, (pumpUntilFailure chunks (some k)).1 = chunks.take k)
    ∧ (∀ chunks failAt c,
        ((pumpUntilFailure chunks failAt).1).count c ≤ chunks.count c) :=
  ⟨fun _ => rfl,
   ⟨rfl, rfl⟩,
   fun _ _ _ => ⟨rfl, rfl⟩,
   pumpUntilFailure_none,
   pumpUntilFailure_take,
   pumpUntilFailure_count⟩
